import Mathlib

/-!
Verification of the Regshield browser clients.

This file gives a shallow embedding of the session-gated search client of
the repository: the React client (`src/Frontend/clause-search-ui/src/App.jsx`)
and the static page script (the unnamed `app.js` file).  Pure helper
functions (`highlight`, `parseJwt`, `isExpired`, the query-string builders,
the response decoders, the source filter) are translated directly; the
stateful event handlers (`runSearch`, `logout`, the login submit handler,
the token-validation effect, the static submit handler) become explicit
state-transformation functions on record types mirroring the React state
variables and the static page's DOM state.

JS strings are modelled as `List Char` where character-level work matters
(highlighting, token splitting) and as `String` elsewhere; JS numbers used
as integers are `Int`; the float `alpha` is `Rat` (only its presence in the
transmitted query string matters to any claim); fallible decoding is
`Option`.
-/

namespace Regshield

/-- A backend result item (`ResultItem` of the spec; consumed in
`ResultCard` and the static renderer).  `score` is only displayed, never
computed with, so `Int` suffices for the embedding. -/
structure ResultItem where
  source : String
  reference : String
  page : Nat
  filename : String
  text : String
  score : Int
deriving DecidableEq

/-- Decoded JSON body of a `/search` response.  `results := none` models a
body whose `results` field is absent or not an array
(`Array.isArray(data.results)` fails); `total_matches := none` models a
`total_matches` field that is absent or not a number
(`typeof data.total_matches === "number"` fails). -/
structure ResponseData where
  results : Option (List ResultItem)
  total_matches : Option Int
deriving DecidableEq

/-- `Array.isArray(data.results) ? data.results : []` (App.jsx line 161,
static client line 66). -/
def decodeResults (d : ResponseData) : List ResultItem :=
  d.results.getD []

/-- `typeof data.total_matches === "number" ? data.total_matches : 0`
(App.jsx line 162). -/
def decodeTotalApp (d : ResponseData) : Int :=
  d.total_matches.getD 0

/-- `typeof data.total_matches === "number" ? data.total_matches : items.length`
(static client line 67). -/
def decodeTotalStatic (d : ResponseData) : Int :=
  d.total_matches.getD (decodeResults d).length

/-- The React client's state variables (App.jsx lines 104-140):
`storedToken` is the `localStorage` entry `"token"`, `token` the state
variable initialised from it (`""` when absent), the rest are the
`useState` hooks of `App`.  `sourceFilter` models the JS `Set` of source
names as a list (only membership is ever used). -/
structure AppState where
  storedToken : Option String
  token : String
  authed : Bool
  authChecked : Bool
  query : String
  method : String
  alpha : Rat
  topK : Int
  loading : Bool
  error : String
  results : List ResultItem
  totalMatches : Int
  sourceFilter : List String
deriving DecidableEq

/-- Successful branch of `runSearch` (App.jsx lines 160-162 and the
`finally` of line 165): the decoded results and total overwrite the
previous ones unconditionally — the handler carries no request identity,
so whichever response arrives is applied. -/
def applySearchResponse (s : AppState) (d : ResponseData) : AppState :=
  { s with results := decodeResults d
           totalMatches := decodeTotalApp d
           loading := false }

/-- Start of `runSearch` (App.jsx line 150): `setLoading(true); setError("")`. -/
def runSearchStart (s : AppState) : AppState :=
  { s with loading := true, error := "" }

/-- `catch` plus `finally` of `runSearch` (App.jsx lines 163-165):
`setError(err.message)`, `setLoading(false)`. -/
def runSearchCatch (s : AppState) (msg : String) : AppState :=
  { s with error := msg, loading := false }

/-- A complete failed run of `runSearch`: the start mutations followed by
the catch/finally mutations. -/
def failedSearch (s : AppState) (msg : String) : AppState :=
  runSearchCatch (runSearchStart s) msg

/-- `logout` (App.jsx line 170): `localStorage.removeItem("token");
setToken(""); setAuthed(false);`. -/
def logout (s : AppState) : AppState :=
  { s with storedToken := none, token := "", authed := false }

/-- The `filtered` memo (App.jsx lines 141-144): empty filter passes all
results through, otherwise `results.filter(r => sourceFilter.has(r.source))`. -/
def filteredResults (results : List ResultItem) (sourceFilter : List String) :
    List ResultItem :=
  if sourceFilter.isEmpty then results
  else results.filter fun r => sourceFilter.contains r.source

/-- Query parameters built by `runSearch` (App.jsx lines 152-156): `query`,
`top_k` (the stored `topK`, stringified, not clamped), `method`, and
`alpha` only when `method === "hybrid"`. -/
def buildSearchParams (query : String) (topK : Int) (method : String)
    (alpha : Rat) : List (String × String) :=
  [("query", query), ("top_k", toString topK), ("method", method)]
    ++ (if method = "hybrid" then [("alpha", toString alpha)] else [])

/-- `Number(topKInput.value) || 20`: `none` models `NaN` (non-numeric
input), and the numeric value `0` is falsy in JS, so both fall back to 20. -/
def numberOr20 : Option Int → Int
  | none => 20
  | some 0 => 20
  | some n => n

/-- `Math.max(5, Math.min(100, n))` (static client line 51). -/
def clampTopK (n : Int) : Int :=
  max 5 (min 100 n)

/-- Query parameters built by the static client's submit handler (lines
51 and 56-60): identical to the React builder except that `top_k` is the
clamped value of the raw input. -/
def buildSearchParamsStatic (query : String) (topKRaw : Option Int)
    (method : String) (alpha : Rat) : List (String × String) :=
  [("query", query), ("top_k", toString (clampTopK (numberOr20 topKRaw))),
    ("method", method)]
    ++ (if method = "hybrid" then [("alpha", toString alpha)] else [])

/-- The claims object embedded in a JWT payload; only `exp` is read by the
client (`p.exp`).  `exp := none` models an absent `exp` claim; the JS
falsiness of `0` is handled in `isExpired`. -/
structure JwtPayload where
  exp : Option Int
deriving DecidableEq

/-- `token.split(".")`: splits a character list at every `'.'`, yielding
the (possibly empty) segments, as JS `String.prototype.split` does. -/
def splitDots (l : List Char) : List (List Char) :=
  l.foldr
    (fun c acc =>
      if c = '.' then [] :: acc
      else
        match acc with
        | [] => [[c]]
        | g :: t => (c :: g) :: t)
    [[]]

/-- `parseJwt` (App.jsx lines 14-23): takes segment 1 of the dot-split
token and decodes it; a missing segment, or any exception inside the
`try` (base64 or JSON failure), yields `null`.  The host-provided base64 /
JSON decoding (`atob`, `decodeURIComponent`, `JSON.parse`) is not
repository code, so it is abstracted as the `decode` parameter mapping a
segment to an optional claims payload. -/
def parseJwt (decode : List Char → Option JwtPayload) (token : String) :
    Option JwtPayload :=
  match (splitDots token.data).get? 1 with
  | none => none
  | some seg => decode seg

/-- `isExpired` (App.jsx lines 24-28): `!p || !p.exp` (null payload,
absent `exp`, or the falsy value `0`) is expired; otherwise
`Date.now() >= p.exp * 1000`. -/
def isExpired (decode : List Char → Option JwtPayload) (token : String)
    (now : Int) : Bool :=
  match parseJwt decode token with
  | none => true
  | some p =>
    match p.exp with
    | none => true
    | some e => if e = 0 then true else decide (now ≥ e * 1000)

/-- Observable effect of one run of the token-validation effect (App.jsx
lines 110-127) before any network response is consumed: whether the
`/auth/me` fetch is issued, whether `localStorage.removeItem("token")`
ran, and the locally decided `authed` value (`none` when the decision is
deferred to the network response). -/
structure ValidateEffect where
  networkCall : Bool
  storeCleared : Bool
  authedResult : Option Bool
deriving DecidableEq

/-- The synchronous part of `validate` (App.jsx lines 112-118): an absent
(`""`) or expired token short-circuits to Invalid — the store is cleared,
`authed` is set to `false`, and no fetch is made; otherwise the `/auth/me`
fetch is issued with the outcome pending. -/
def validateStep (decode : List Char → Option JwtPayload) (token : String)
    (now : Int) : ValidateEffect :=
  if token = "" ∨ isExpired decode token now = true then
    { networkCall := false, storeCleared := true, authedResult := some false }
  else
    { networkCall := true, storeCleared := false, authedResult := none }

/-- Decoded JSON body of a `/auth/login` response together with its HTTP
success flag (`res.ok`). -/
structure LoginResponse where
  ok : Bool
  access_token : Option String
deriving DecidableEq

/-- `LoginView.submit` success path (App.jsx lines 74-78): on a non-ok
response or a missing `access_token` an error is thrown (store unchanged,
`onLoggedIn` not called); otherwise the token is written to the store and
passed to `onLoggedIn` (which becomes the new `token` state, re-running
the validation effect).  Returns (new store contents, token handed to
`onLoggedIn`). -/
def loginStep (store : Option String) (r : LoginResponse) :
    Option String × Option String :=
  if r.ok then
    match r.access_token with
    | some t => (some t, some t)
    | none => (store, none)
  else (store, none)

/-- DOM state touched by the static client's submit handler: the error
box, info box, status line, count pill and rendered result cards, plus
the query input (never written by the handler). -/
structure StaticViewState where
  query : String
  errShown : Bool
  errText : String
  infoShown : Bool
  infoText : String
  statText : String
  countShown : Bool
  resultsShown : List ResultItem
deriving DecidableEq

/-- Static client submit handler, lines 43-48: hide the error box, show
"Searching…", hide the count pill, and clear the rendered results before
the request is sent. -/
def staticSubmitBegin (s : StaticViewState) : StaticViewState :=
  { s with errShown := false
           infoShown := true
           infoText := "Searching…"
           statText := "Searching…"
           countShown := false
           resultsShown := [] }

/-- Static client catch branch, lines 106-111: show the error text, hide
the info box, set the status line to "Error". -/
def staticSubmitCatch (s : StaticViewState) (msg : String) : StaticViewState :=
  { s with errText := msg
           errShown := true
           infoShown := false
           statText := "Error" }

/-- A complete failed run of the static submit handler. -/
def staticFailedSearch (s : StaticViewState) (msg : String) : StaticViewState :=
  staticSubmitCatch (staticSubmitBegin s) msg

/-- Case-folding of a character list, modelling the `i` flag of the
highlight regular expression (ASCII case-insensitive matching). -/
def lowerChars (l : List Char) : List Char :=
  l.map Char.toLower

/-- `q` matches at the head of `s`, case-insensitively: the semantics of
the anchored test of the escaped-literal regular expression
`new RegExp("(" + esc + ")", "ig")` at one position.  Because every
regex metacharacter of `q` is escaped first (App.jsx line 10, static
client line 24), the pattern denotes the literal string `q`. -/
def isPrefixCI (q s : List Char) : Bool :=
  decide (q.length ≤ s.length) && decide (lowerChars (s.take q.length) = lowerChars q)

/-- `s` contains a case-insensitive occurrence of `q` at some position. -/
def containsCI (q s : List Char) : Bool :=
  (List.range (s.length + 1)).any fun i => isPrefixCI q (s.drop i)

/-- Segmentation produced by `String(txt).split(re)` with a capturing
group followed by marking the odd-indexed pieces (App.jsx line 12): the
text is scanned left to right; each leftmost case-insensitive occurrence
of `q` becomes a marked (`true`) segment preserving its original case,
and the text between matches accumulates into unmarked (`false`)
segments.  `fuel` bounds the recursion; every step consumes at least one
character, so `fuel := s.length` is always enough. -/
def hlAux (q : List Char) : Nat → List Char → List (List Char × Bool)
  | _, [] => [([], false)]
  | 0, s => [(s, false)]
  | fuel + 1, c :: rest =>
    if isPrefixCI q (c :: rest) then
      ((c :: rest).take q.length, true) :: hlAux q fuel ((c :: rest).drop q.length)
    else
      match hlAux q fuel rest with
      | (g, false) :: t => (c :: g, false) :: t
      | segs => ([c], false) :: segs

/-- `highlight` of the React client (App.jsx lines 8-13): empty query or
empty text returns the text as a single unhighlighted piece
(`if (!q || !txt) return txt || ""`); otherwise the split-and-mark
segmentation. -/
def highlight (txt q : List Char) : List (List Char × Bool) :=
  if q = [] ∨ txt = [] then [(txt, false)] else hlAux q txt.length txt

/-- The `safe` HTML escaper of the static client (line 21): each of
`& < > " '` is replaced by its character entity. -/
def safeChar (c : Char) : List Char :=
  if c = '&' then "&amp;".data
  else if c = '<' then "&lt;".data
  else if c = '>' then "&gt;".data
  else if c = '"' then "&quot;".data
  else if c = Char.ofNat 39 then "&#039;".data
  else [c]

/-- `safe(s)` over a character list. -/
def safeHtml (l : List Char) : List Char :=
  (l.map safeChar).flatten

/-- `highlight` of the static client (lines 22-27): the text is
HTML-escaped FIRST, and the escaped-literal regular expression is then
matched against the escaped text
(`safe(text).replace(re, "<mark>$1</mark>")`), so matching happens on
`safe txt`, not on `txt`. -/
def highlightStatic (txt q : List Char) : List (List Char × Bool) :=
  if q = [] ∨ txt = [] then [(safeHtml txt, false)]
  else hlAux q (safeHtml txt).length (safeHtml txt)

theorem isPrefixCI_mono (q s t : List Char) (h : isPrefixCI q s = true)
    (hst : ∃ r, s ++ r = t) : isPrefixCI q t = true := by
  obtain ⟨r, rfl⟩ := hst
  unfold isPrefixCI at h ⊢
  simp only [Bool.and_eq_true, decide_eq_true_eq] at h ⊢
  obtain ⟨h1, h2⟩ := h
  refine ⟨le_trans h1 (by simp), ?_⟩
  rwa [List.take_append_of_le_length h1]

theorem hlAux_join (q : List Char) :
    ∀ fuel s, ((hlAux q fuel s).map Prod.fst).flatten = s := by
  intro fuel
  induction fuel with
  | zero =>
    intro s
    cases s with
    | nil => simp [hlAux]
    | cons c rest => simp [hlAux]
  | succ fuel ih =>
    intro s
    cases s with
    | nil => simp [hlAux]
    | cons c rest =>
      simp only [hlAux]
      split
      · simp only [List.map_cons, List.flatten_cons, ih]
        exact List.take_append_drop _ _
      · have hr := ih rest
        split
        · next g t heq =>
          rw [heq] at hr
          simp only [List.map_cons, List.flatten_cons] at hr ⊢
          rw [List.cons_append, hr]
        · simp only [List.map_cons, List.flatten_cons, hr, List.singleton_append]

theorem hlAux_marked (q : List Char) :
    ∀ fuel s, ∀ seg ∈ hlAux q fuel s, seg.2 = true →
      lowerChars seg.1 = lowerChars q := by
  intro fuel
  induction fuel with
  | zero =>
    intro s seg hmem hseg
    cases s with
    | nil => simp [hlAux] at hmem; rw [hmem] at hseg; simp at hseg
    | cons c rest => simp [hlAux] at hmem; rw [hmem] at hseg; simp at hseg
  | succ fuel ih =>
    intro s seg hmem hseg
    cases s with
    | nil => simp [hlAux] at hmem; rw [hmem] at hseg; simp at hseg
    | cons c rest =>
      simp only [hlAux] at hmem
      split at hmem
      · next hpre =>
        rcases List.mem_cons.mp hmem with h1 | h2
        · rw [h1]
          unfold isPrefixCI at hpre
          simp only [Bool.and_eq_true, decide_eq_true_eq] at hpre
          exact hpre.2
        · exact ih _ seg h2 hseg
      · split at hmem
        · next g t heq =>
          rcases List.mem_cons.mp hmem with h1 | h2
          · rw [h1] at hseg; simp at hseg
          · exact ih rest seg (heq ▸ List.mem_cons_of_mem _ h2) hseg
        · rcases List.mem_cons.mp hmem with h1 | h2
          · rw [h1] at hseg; simp at hseg
          · exact ih rest seg h2 hseg

theorem containsCI_nil (q : List Char) (hq : q ≠ []) : containsCI q [] = false := by
  cases q with
  | nil => exact absurd rfl hq
  | cons a l => simp [containsCI, isPrefixCI]

theorem containsCI_cons (q : List Char) (c : Char) (g : List Char) :
    containsCI q (c :: g) = (isPrefixCI q (c :: g) || containsCI q g) := by
  unfold containsCI
  rw [List.length_cons, List.range_succ_eq_map]
  simp [List.any_cons, List.any_map, Function.comp_def]

theorem hlAux_gaps (q : List Char) (hq : q ≠ []) :
    ∀ fuel s, s.length ≤ fuel → ∀ seg ∈ hlAux q fuel s, seg.2 = false →
      containsCI q seg.1 = false := by
  intro fuel
  induction fuel with
  | zero =>
    intro s hlen seg hmem hseg
    have hs : s = [] := List.length_eq_zero.mp (Nat.le_zero.mp hlen)
    subst hs
    simp [hlAux] at hmem
    rw [hmem]
    exact containsCI_nil q hq
  | succ fuel ih =>
    intro s hlen seg hmem hseg
    cases s with
    | nil =>
      simp [hlAux] at hmem
      rw [hmem]
      exact containsCI_nil q hq
    | cons c rest =>
      have hrest : rest.length ≤ fuel := by
        simp only [List.length_cons] at hlen; omega
      simp only [hlAux] at hmem
      split at hmem
      · next hpre =>
        rcases List.mem_cons.mp hmem with h1 | h2
        · rw [h1] at hseg; simp at hseg
        · refine ih _ ?_ seg h2 hseg
          have hql : 1 ≤ q.length := by
            cases q with
            | nil => exact absurd rfl hq
            | cons a l => simp
          simp only [List.length_drop, List.length_cons]
          omega
      · next hpre =>
        have hnpre : isPrefixCI q (c :: rest) = false := by
          cases hb : isPrefixCI q (c :: rest) with
          | false => rfl
          | true => exact absurd hb hpre
        split at hmem
        · next g t heq =>
          rcases List.mem_cons.mp hmem with h1 | h2
          · rw [h1]
            have hjoin := hlAux_join q fuel rest
            rw [heq] at hjoin
            simp only [List.map_cons, List.flatten_cons] at hjoin
            have hg : containsCI q g = false :=
              ih rest hrest (g, false) (heq ▸ List.mem_cons_self _ _) rfl
            have hp : isPrefixCI q (c :: g) = false := by
              cases hb : isPrefixCI q (c :: g) with
              | false => rfl
              | true =>
                have := isPrefixCI_mono q (c :: g) (c :: rest) hb
                  ⟨(t.map Prod.fst).flatten, by rw [List.cons_append, hjoin]⟩
                rw [this] at hnpre
                exact absurd hnpre (by simp)
            rw [containsCI_cons, hp, hg]
            rfl
          · exact ih rest hrest seg (heq ▸ List.mem_cons_of_mem _ h2) hseg
        · rcases List.mem_cons.mp hmem with h1 | h2
          · rw [h1]
            have hp : isPrefixCI q [c] = false := by
              cases hb : isPrefixCI q [c] with
              | false => rfl
              | true =>
                have := isPrefixCI_mono q [c] (c :: rest) hb ⟨rest, rfl⟩
                rw [this] at hnpre
                exact absurd hnpre (by simp)
            rw [containsCI_cons, hp, containsCI_nil q hq]
            rfl
          · exact ih rest hrest seg h2 hseg

/-- Sample backend result item (a GDPR clause) for concrete checks. -/
def itemA : ResultItem :=
  { source := "GDPR", reference := "Art. 33", page := 1,
    filename := "gdpr.pdf", text := "notify the authority", score := 9 }

/-- Second sample backend result item (a PDPL clause). -/
def itemB : ResultItem :=
  { source := "PDPL", reference := "Art. 29", page := 4,
    filename := "pdpl.pdf", text := "within 72 hours", score := 8 }

/-- A React client state mid-search: authenticated, two pending-request
scenario, empty result set. -/
def sampleState : AppState :=
  { storedToken := some "a.b", token := "a.b", authed := true,
    authChecked := true, query := "data breach", method := "hybrid",
    alpha := 3 / 5, topK := 20, loading := true, error := "",
    results := [], totalMatches := 0, sourceFilter := [] }

/-- A static client view showing one previously fetched result. -/
def sampleStatic : StaticViewState :=
  { query := "data breach", errShown := false, errText := "",
    infoShown := false, infoText := "", statText := "", countShown := true,
    resultsShown := [itemA] }

/-- C1 counterexample: request A is issued before request B; B's response
(carrying `itemB`) arrives first and A's stale response (carrying `itemA`)
arrives last.  `runSearch` applies every arriving response unconditionally
(it carries no request identity), so the final ResultSet is A's `[itemA]`,
not B's `[itemB]` as the claim requires. -/
theorem stale_response_overwrites_newer :
    (applySearchResponse
        (applySearchResponse sampleState
          { results := some [itemB], total_matches := some 1 })
        { results := some [itemA], total_matches := some 1 }).results = [itemA]
    ∧ itemA ≠ itemB := by
  exact ⟨rfl, by decide⟩

/-- C1 (amended): `runSearch` has no staleness guard, so search responses
are applied in ARRIVAL order: after any sequence of response arrivals the
ResultSet and totalMatches are the ones decoded from the last-arriving
response, regardless of which request issued it. -/
theorem resultset_last_arrival_wins (s : AppState) (pre : List ResponseData)
    (d : ResponseData) :
    ((pre ++ [d]).foldl applySearchResponse s).results = decodeResults d
    ∧ ((pre ++ [d]).foldl applySearchResponse s).totalMatches
        = decodeTotalApp d := by
  rw [List.foldl_append]
  exact ⟨rfl, rfl⟩

/-- C2 counterexample: the React client transmits the stored topK value
200 as `top_k=200`, not the claimed clamped `top_k=100`. -/
theorem react_topk_not_clamped :
    ("top_k", "200") ∈ buildSearchParams "data breach" 200 "lexical" (3 / 5)
    ∧ ("top_k", "100") ∉ buildSearchParams "data breach" 200 "lexical" (3 / 5) := by
  constructor
  · decide
  · decide

/-- C2 (amended): the static client clamps the raw top-K input into
[5,100] before transmission (200 becomes 100, 1 becomes 5, missing or zero
input defaults to 20) and transmits the clamped value; the React client
transmits its stored topK unchanged. -/
theorem topk_clamping_amended (v : Option Int) (q : String) (m : String)
    (a : Rat) (k : Int) :
    5 ≤ clampTopK (numberOr20 v)
    ∧ clampTopK (numberOr20 v) ≤ 100
    ∧ clampTopK 200 = 100
    ∧ clampTopK 1 = 5
    ∧ ("top_k", toString (clampTopK (numberOr20 v)))
        ∈ buildSearchParamsStatic q v m a
    ∧ ("top_k", toString k) ∈ buildSearchParams q k m a := by
  refine ⟨le_max_left _ _, ?_, by decide, by decide, ?_, ?_⟩
  · exact max_le (by norm_num) (min_le_left _ _)
  · simp [buildSearchParamsStatic]
  · simp [buildSearchParams]

/-- C3 counterexample: a successful login persists the fresh token `"h.e"`
and hands it to `setToken`; the token-change effect then re-runs
`validate`, which for this fresh, unexpired token DOES issue the
`/auth/me` server-confirmation fetch — contradicting the claim that the
freshly issued token is trusted without another confirmation call. -/
theorem fresh_token_revalidated :
    loginStep none { ok := true, access_token := some "h.e" }
        = (some "h.e", some "h.e")
    ∧ (validateStep (fun _ => some { exp := some 99999999999 }) "h.e"
        1700000000000).networkCall = true := by
  exact ⟨rfl, rfl⟩

/-- C3 (amended): a successful login persists the token to the store and
hands it to the state machine, and the validation effect re-runs for the
new token: for any token the client does not consider expired it performs
the `/auth/me` confirmation call (the fresh token is re-confirmed, not
trusted blindly), leaving the store intact. -/
theorem login_then_revalidate (store : Option String) (t : String)
    (decode : List Char → Option JwtPayload) (now : Int)
    (h : isExpired decode t now = false) :
    loginStep store { ok := true, access_token := some t } = (some t, some t)
    ∧ validateStep decode t now =
        { networkCall := true, storeCleared := false, authedResult := none } := by
  refine ⟨rfl, ?_⟩
  unfold validateStep
  rw [if_neg]
  rintro (h1 | h2)
  · have hexp : isExpired decode "" now = true := rfl
    rw [h1, hexp] at h
    simp at h
  · rw [h2] at h
    simp at h

/-- C3 amended claim exercised at a concrete fresh token. -/
theorem login_then_revalidate_witness :
    loginStep none { ok := true, access_token := some "a.b" }
        = (some "a.b", some "a.b")
    ∧ validateStep (fun _ => some { exp := some 2 }) "a.b" 0 =
        { networkCall := true, storeCleared := false, authedResult := none } :=
  login_then_revalidate none "a.b" (fun _ => some { exp := some 2 }) 0
    (by decide)

/-- C4 counterexample: a response with two decoded results and a missing
`total_matches` field — the React client sets totalMatches to 0, not to
the claimed `results.length = 2`. -/
theorem app_total_matches_zero :
    decodeTotalApp { results := some [itemA, itemB], total_matches := none } = 0
    ∧ (decodeResults
        { results := some [itemA, itemB], total_matches := none }).length = 2
    ∧ (0 : Int) ≠ 2 := by
  exact ⟨rfl, rfl, by decide⟩

/-- C4 (amended): both clients decode a missing `results` field as the
empty list and pass a present one through; a missing or non-numeric
`total_matches` is decoded as `results.length` by the static client but as
`0` by the React client; a numeric `total_matches` is passed through by
both. -/
theorem lenient_decoding (d : ResponseData) :
    (d.results = none → decodeResults d = [])
    ∧ (∀ rs, d.results = some rs → decodeResults d = rs)
    ∧ (d.total_matches = none →
        decodeTotalStatic d = ((decodeResults d).length : Int)
        ∧ decodeTotalApp d = 0)
    ∧ (∀ n, d.total_matches = some n →
        decodeTotalApp d = n ∧ decodeTotalStatic d = n) := by
  refine ⟨?_, ?_, ?_, ?_⟩
  · intro h; simp [decodeResults, h]
  · intro rs h; simp [decodeResults, h]
  · intro h
    simp [decodeTotalStatic, decodeTotalApp, h]
  · intro n h
    simp [decodeTotalStatic, decodeTotalApp, h]

/-- C4 amended claim exercised at concrete responses. -/
theorem lenient_decoding_witness :
    decodeResults { results := none, total_matches := none } = []
    ∧ decodeTotalStatic { results := some [itemA], total_matches := none } = 1
    ∧ decodeTotalApp { results := some [itemA], total_matches := none } = 0 := by
  refine ⟨(lenient_decoding _).1 rfl, ?_,
    ((lenient_decoding _).2.2.1 rfl).2⟩
  have h := ((lenient_decoding
    { results := some [itemA], total_matches := none }).2.2.1 rfl).1
  rw [h]
  rfl

/-- C5: an absent token, an undecodable token (missing second segment or
failing claims decoding), or a token whose embedded expiry instant is at
or before the current time (including the JS-falsy `exp = 0`), makes the
validation effect return Invalid purely locally: no `/auth/me` fetch is
issued, the token-store entry is cleared, and `authed` is forced false. -/
theorem invalid_token_no_network (decode : List Char → Option JwtPayload)
    (token : String) (now : Int)
    (h : token = "" ∨ parseJwt decode token = none
        ∨ ∃ p, parseJwt decode token = some p
            ∧ (p.exp = none ∨ p.exp = some 0
                ∨ ∃ e, p.exp = some e ∧ e * 1000 ≤ now)) :
    validateStep decode token now =
      { networkCall := false, storeCleared := true, authedResult := some false } := by
  have hcond : token = "" ∨ isExpired decode token now = true := by
    rcases h with h | h | ⟨p, hp, hcase⟩
    · exact Or.inl h
    · refine Or.inr ?_
      unfold isExpired
      rw [h]
    · refine Or.inr ?_
      unfold isExpired
      rw [hp]
      show (match p.exp with
        | none => true
        | some e => if e = 0 then true else decide (now ≥ e * 1000)) = true
      rcases hcase with he | he | ⟨e, he, hle⟩
      · rw [he]
      · rw [he]
        simp
      · rw [he]
        show (if e = 0 then true else decide (now ≥ e * 1000)) = true
        by_cases h0 : e = 0
        · rw [if_pos h0]
        · rw [if_neg h0]
          exact decide_eq_true hle
  unfold validateStep
  rw [if_pos hcond]

/-- C5 exercised at a concrete malformed token. -/
theorem invalid_token_no_network_witness :
    validateStep (fun _ => none) "x.y" 0 =
      { networkCall := false, storeCleared := true, authedResult := some false } :=
  invalid_token_no_network (fun _ => none) "x.y" 0 (Or.inr (Or.inl rfl))

/-- C6 counterexample: the static client's submit handler clears the
rendered result cards BEFORE issuing the request, so after a failed search
the previously displayed ResultSet is gone, not preserved as the claim
states. -/
theorem static_failed_search_clears_results :
    (staticFailedSearch sampleStatic "HTTP 500").resultsShown = []
    ∧ sampleStatic.resultsShown = [itemA]
    ∧ ([] : List ResultItem) ≠ [itemA] := by
  exact ⟨rfl, rfl, by decide⟩

/-- C6 (amended): in the React client a failed search only sets the inline
error message (and stops the spinner); results, totalMatches, query,
method, alpha, topK, source filter, session and token state are all
unchanged — a failed search never logs the user out.  In the static client
the query input and session are likewise untouched and the error box shows
the message, but the rendered results were cleared at submission start, so
the result area is empty after the failure. -/
theorem failed_search_frame (s : AppState) (t : StaticViewState) (msg : String) :
    (failedSearch s msg).results = s.results
    ∧ (failedSearch s msg).totalMatches = s.totalMatches
    ∧ (failedSearch s msg).query = s.query
    ∧ (failedSearch s msg).authed = s.authed
    ∧ (failedSearch s msg).token = s.token
    ∧ (failedSearch s msg).storedToken = s.storedToken
    ∧ (failedSearch s msg).sourceFilter = s.sourceFilter
    ∧ (failedSearch s msg).method = s.method
    ∧ (failedSearch s msg).alpha = s.alpha
    ∧ (failedSearch s msg).topK = s.topK
    ∧ (failedSearch s msg).error = msg
    ∧ (failedSearch s msg).loading = false
    ∧ (staticFailedSearch t msg).query = t.query
    ∧ (staticFailedSearch t msg).errShown = true
    ∧ (staticFailedSearch t msg).errText = msg
    ∧ (staticFailedSearch t msg).resultsShown = [] := by
  exact ⟨rfl, rfl, rfl, rfl, rfl, rfl, rfl, rfl, rfl, rfl, rfl, rfl, rfl,
    rfl, rfl, rfl⟩

/-- C7: both clients put an `alpha` query parameter in the transmitted
request exactly when the method is `hybrid`, regardless of the stored
alpha value. -/
theorem alpha_iff_hybrid (q : String) (k : Int) (m : String) (a : Rat)
    (v : Option Int) :
    ((buildSearchParams q k m a).any fun p => decide (p.1 = "alpha"))
        = decide (m = "hybrid")
    ∧ ((buildSearchParamsStatic q v m a).any fun p => decide (p.1 = "alpha"))
        = decide (m = "hybrid") := by
  constructor <;>
  · by_cases hm : m = "hybrid"
    · subst hm
      simp [buildSearchParams, buildSearchParamsStatic]
    · simp [buildSearchParams, buildSearchParamsStatic, hm]

/-- C8 (amended, holds for the React client's `highlight`): the segments
concatenate back to the original text; every marked segment is a
case-insensitive occurrence of the literal query (regex metacharacters
are escaped, so the pattern is the literal query string); no unmarked
segment contains an occurrence of the query (all non-overlapping
occurrences get marked); and an empty query or empty text yields the
single unmodified, unhighlighted segment.  The static client's variant
matches against the HTML-escaped text instead and misses occurrences
containing HTML-special characters — see the counterexample. -/
theorem highlight_spec (txt q : List Char) :
    ((highlight txt q).map Prod.fst).flatten = txt
    ∧ (∀ seg ∈ highlight txt q, seg.2 = true →
        lowerChars seg.1 = lowerChars q)
    ∧ (q ≠ [] → ∀ seg ∈ highlight txt q, seg.2 = false →
        containsCI q seg.1 = false)
    ∧ (q = [] ∨ txt = [] → highlight txt q = [(txt, false)]) := by
  refine ⟨?_, ?_, ?_, ?_⟩
  · unfold highlight
    split
    · simp
    · exact hlAux_join q txt.length txt
  · intro seg hmem hseg
    unfold highlight at hmem
    split at hmem
    · simp at hmem
      rw [hmem] at hseg
      simp at hseg
    · exact hlAux_marked q txt.length txt seg hmem hseg
  · intro hq seg hmem hseg
    unfold highlight at hmem
    split at hmem
    · next hcond =>
      simp at hmem
      rcases hcond with hc | hc
      · exact absurd hc hq
      · rw [hmem]
        subst hc
        exact containsCI_nil q hq
    · exact hlAux_gaps q hq txt.length txt le_rfl seg hmem hseg
  · intro h
    unfold highlight
    rw [if_pos h]

/-- C8 amended claim exercised on the spec's own example: highlighting
"Notify within 72 Hours" with query "72 hours" marks "72 Hours"
case-insensitively, and the surrounding unmarked text holds no
occurrence. -/
theorem highlight_spec_witness :
    lowerChars "72 Hours".data = lowerChars "72 hours".data
    ∧ containsCI "72 hours".data "Notify within ".data = false := by
  constructor
  · exact (highlight_spec "Notify within 72 Hours".data "72 hours".data).2.1
      ("72 Hours".data, true) (by decide) rfl
  · exact (highlight_spec "Notify within 72 Hours".data "72 hours".data).2.2.1
      (by decide) ("Notify within ".data, false) (by decide) rfl

/-- C8 counterexample (static client): for text "a&b" and query "a&b" the
text IS one case-insensitive occurrence of the query, yet the static
highlight escapes the text to "a&amp;b" before matching, so no segment is
marked — the occurrence is missed. -/
theorem static_highlight_misses_escaped :
    containsCI "a&b".data "a&b".data = true
    ∧ (highlightStatic "a&b".data "a&b".data).all (fun seg => !seg.2) = true := by
  exact ⟨by decide, by decide⟩

/-- C9: with an empty source filter the post-processor is the identity on
the result sequence; with a non-empty filter it returns exactly the
order-preserving subsequence of items whose source is in the filter. -/
theorem source_filter_spec (results : List ResultItem) (f : List String) :
    (f = [] → filteredResults results f = results)
    ∧ (f ≠ [] → filteredResults results f
        = results.filter fun r => f.contains r.source)
    ∧ List.Sublist (filteredResults results f) results := by
  refine ⟨?_, ?_, ?_⟩
  · intro h
    subst h
    rfl
  · intro h
    unfold filteredResults
    rw [if_neg (by simpa using h)]
  · unfold filteredResults
    split
    · exact List.Sublist.refl _
    · exact List.filter_sublist _

/-- C9 exercised at a concrete result set and filter. -/
theorem source_filter_spec_witness :
    filteredResults [itemA, itemB] [] = [itemA, itemB]
    ∧ filteredResults [itemA, itemB] ["GDPR"]
        = [itemA, itemB].filter fun r => (["GDPR"] : List String).contains r.source := by
  exact ⟨(source_filter_spec [itemA, itemB] []).1 rfl,
    (source_filter_spec [itemA, itemB] ["GDPR"]).2.1 (by decide)⟩

/-- C10: logout removes the stored token and forces the session to
Unauthenticated, leaving query text, method, alpha, topK, the current
ResultSet, totalMatches and the source filter unchanged. -/
theorem logout_frame (s : AppState) :
    (logout s).storedToken = none
    ∧ (logout s).token = ""
    ∧ (logout s).authed = false
    ∧ (logout s).query = s.query
    ∧ (logout s).method = s.method
    ∧ (logout s).alpha = s.alpha
    ∧ (logout s).topK = s.topK
    ∧ (logout s).results = s.results
    ∧ (logout s).totalMatches = s.totalMatches
    ∧ (logout s).sourceFilter = s.sourceFilter
    ∧ (logout s).authChecked = s.authChecked := by
  exact ⟨rfl, rfl, rfl, rfl, rfl, rfl, rfl, rfl, rfl, rfl, rfl⟩

end Regshield
